import Mathlib

/-!
Verification of the batch clinical-NLP pipeline against its specification.

The definitions below are a shallow embedding of the TypeScript source:

* the Supabase edge function (performNER, performSummarization,
  performComparison, varyEntities),
* the frontend batch orchestrator (handleBatchProcess in
  BatchProcessing.tsx), and
* the utility module (exportAsCSV, calculateCompletenessScore,
  generateInsights in lib/utils.ts).

JavaScript numbers are modelled as rationals; `Number.toFixed(k)` is
modelled as exact decimal rounding (round half up, which agrees with the
idealized toFixed on non-negative values), and `Math.round` is modelled by
Mathlib `round` (floor of x + 1/2, which is exactly the ECMAScript
Math.round). External effects (HTTP responses, file reads, random draws)
are passed in as explicit parameters.
-/

namespace ClinicalNLP

/-- Model of JavaScript `Number(x.toFixed(4))`: round to 4 decimal places. -/
def round4 (q : ℚ) : ℚ := (round (q * 10000) : ℚ) / 10000

/-- An entity as produced by the edge function and consumed by the frontend. -/
structure Entity where
  text : String
  type : String
  confidence : ℚ
  startPos : ℕ
  endPos : ℕ
deriving DecidableEq, Repr

/-- A raw item of the Hugging Face NER response
(`word` / `entity_group` / `score` / `start` / `end`). -/
structure RawEntity where
  word : String
  group : String
  score : ℚ
  startPos : ℕ
  endPos : ℕ
deriving DecidableEq, Repr

/-- Shape of the value returned by `performNER`. -/
structure NERResult where
  entities : List Entity
  entityCount : ℕ
  avgConfidence : ℚ
  entityTypes : List String
deriving DecidableEq, Repr

/-- First-occurrence deduplication, the semantics of
JavaScript `[...new Set(xs)]` (insertion order preserved). -/
def jsSetDedup : List String → List String
  | [] => []
  | x :: xs => x :: jsSetDedup (xs.filter (fun y => y ≠ x))
termination_by l => l.length
decreasing_by
  simp only [List.length_cons]
  exact Nat.lt_succ_of_le (List.length_filter_le _ _)

/-- Mean of the confidences of a list of entities,
`0` for the empty list (the `length > 0 ? sum / length : 0` pattern
shared by `performNER` and `performComparison`). -/
def confMean (es : List Entity) : ℚ :=
  if 0 < es.length then (es.map Entity.confidence).sum / (es.length : ℚ) else 0

/-- Confidence threshold default of `performNER` (also the value the batch
frontend passes explicitly). -/
def defaultNERThreshold : ℚ := 1 / 2

/-- Shallow embedding of the edge function `performNER`.  The Hugging Face
response is passed in: `some items` when the response is an array,
`none` otherwise (the `Array.isArray` guard).  Entities are mapped from the
raw fields and filtered by `confidence >= threshold`; the statistics are
computed from the retained set, with the average rounded via `toFixed(4)`. -/
def performNER (resp : Option (List RawEntity)) (threshold : ℚ) : NERResult :=
  let entities :=
    match resp with
    | some items =>
        (items.map fun it =>
          Entity.mk it.word it.group it.score it.startPos it.endPos).filter
          (fun e => threshold ≤ e.confidence)
    | none => []
  let avgConfidence :=
    if 0 < entities.length then
      (entities.map Entity.confidence).sum / (entities.length : ℚ)
    else 0
  { entities := entities
    entityCount := entities.length
    avgConfidence := round4 avgConfidence
    entityTypes := jsSetDedup (entities.map Entity.type) }

end ClinicalNLP

namespace ClinicalNLP

lemma performNER_avg (resp : Option (List RawEntity)) (t : ℚ) :
    (performNER resp t).avgConfidence = round4 (confMean (performNER resp t).entities) := by
  cases resp <;> simp [performNER, confMean]

/-- Claim C4: every entity returned by `performNER` with threshold `t`
(default 0.5) satisfies `confidence >= t`; entities below the threshold are
dropped before counting and averaging, so `entityCount` is the number of
retained entities and `avgConfidence` is computed over the retained
entities only (rounded to 4 decimals as the code does). -/
theorem c4_ner_threshold_filter (resp : Option (List RawEntity)) (t : ℚ) :
    (∀ e ∈ (performNER resp t).entities, t ≤ e.confidence) ∧
    (performNER resp t).entityCount = (performNER resp t).entities.length ∧
    (performNER resp t).avgConfidence = round4 (confMean (performNER resp t).entities) ∧
    defaultNERThreshold = 1 / 2 := by
  refine ⟨?_, ?_, performNER_avg resp t, rfl⟩
  · intro e he
    cases resp with
    | none => simp [performNER] at he
    | some items =>
        simp only [performNER, List.mem_filter, decide_eq_true_eq] at he
        exact he.2
  · cases resp <;> simp [performNER]

/-- Witness for C4 at a concrete response: one entity above and one below
the threshold. -/
theorem c4_witness :
    (∀ e ∈ (performNER (some [RawEntity.mk "aspirin" "Medication" (9/10) 0 7,
        RawEntity.mk "mild" "Severity" (2/5) 8 12]) (1/2)).entities,
        (1:ℚ)/2 ≤ e.confidence) ∧
    (performNER (some [RawEntity.mk "aspirin" "Medication" (9/10) 0 7,
        RawEntity.mk "mild" "Severity" (2/5) 8 12]) (1/2)).entityCount =
      (performNER (some [RawEntity.mk "aspirin" "Medication" (9/10) 0 7,
        RawEntity.mk "mild" "Severity" (2/5) 8 12]) (1/2)).entities.length ∧
    (performNER (some [RawEntity.mk "aspirin" "Medication" (9/10) 0 7,
        RawEntity.mk "mild" "Severity" (2/5) 8 12]) (1/2)).avgConfidence =
      round4 (confMean (performNER (some [RawEntity.mk "aspirin" "Medication" (9/10) 0 7,
        RawEntity.mk "mild" "Severity" (2/5) 8 12]) (1/2)).entities) ∧
    defaultNERThreshold = 1 / 2 :=
  c4_ner_threshold_filter
    (some [RawEntity.mk "aspirin" "Medication" (9/10) 0 7,
           RawEntity.mk "mild" "Severity" (2/5) 8 12]) (1/2)

/-- Claim C5, counterexample: with three retained entities of confidences
0.6, 0.6, 0.7 the exact mean is 19/30, but the code stores
`Number(mean.toFixed(4)) = 0.6333`, so `avgConfidence` is not the exact
arithmetic mean of the entity confidences. -/
theorem c5_counterexample :
    (performNER (some [RawEntity.mk "a" "T" (3/5) 0 1,
        RawEntity.mk "b" "T" (3/5) 1 2,
        RawEntity.mk "c" "T" (7/10) 2 3]) (1/2)).avgConfidence ≠
      confMean (performNER (some [RawEntity.mk "a" "T" (3/5) 0 1,
        RawEntity.mk "b" "T" (3/5) 1 2,
        RawEntity.mk "c" "T" (7/10) 2 3]) (1/2)).entities := by
  norm_num [performNER, confMean, round4, round_eq, List.filter]

/-- Claim C5 as amended: `avgConfidence` equals the arithmetic mean of the
entity confidences rounded to 4 decimal places, and is exactly `0` when the
entity list is empty. -/
theorem c5_avg_confidence_amended (resp : Option (List RawEntity)) (t : ℚ) :
    (performNER resp t).avgConfidence = round4 (confMean (performNER resp t).entities) ∧
    ((performNER resp t).entities = [] → (performNER resp t).avgConfidence = 0) := by
  refine ⟨performNER_avg resp t, fun h => ?_⟩
  rw [performNER_avg resp t, h]
  simp [confMean, round4]

/-- Witness for C5 (amended) at a concrete response with an empty retained
set: the average is exactly 0. -/
theorem c5_witness :
    (performNER (some [RawEntity.mk "mild" "Severity" (2/5) 8 12]) (1/2)).avgConfidence =
      round4 (confMean (performNER (some [RawEntity.mk "mild" "Severity" (2/5) 8 12])
        (1/2)).entities) ∧
    ((performNER (some [RawEntity.mk "mild" "Severity" (2/5) 8 12]) (1/2)).entities = [] →
      (performNER (some [RawEntity.mk "mild" "Severity" (2/5) 8 12]) (1/2)).avgConfidence = 0) :=
  c5_avg_confidence_amended (some [RawEntity.mk "mild" "Severity" (2/5) 8 12]) (1/2)

/-- Model of JavaScript `\s` on the characters this embedding tracks. -/
def jsIsSpace (c : Char) : Bool :=
  c = ' ' ∨ c = '\t' ∨ c = '\n' ∨ c = '\r'

/-- Number of maximal whitespace runs in a character list; the flag records
whether we are currently inside a run. -/
def wsRuns : List Char → Bool → ℕ
  | [], _ => 0
  | c :: rest, inRun =>
      if jsIsSpace c then (if inRun then 0 else 1) + wsRuns rest true
      else wsRuns rest false

/-- Length of `text.split(/\s+/)` in JavaScript: one more than the number of
maximal whitespace runs (the split keeps empty tokens at the ends, and on
the empty string yields a single empty token). -/
def jsSplitWsCount (s : List Char) : ℕ := 1 + wsRuns s false

/-- Model of JavaScript `x.toFixed(1)` on a rational (round half up, sign
handled by the integer rounding). -/
def fmtFixed1 (q : ℚ) : String :=
  let m := round (q * 10)
  (if m < 0 then "-" else "") ++ toString (m.natAbs / 10) ++ "." ++ toString (m.natAbs % 10)

/-- Shape of the value built by `performSummarization`, extended with the
text actually submitted to the inference service and the derived
`min_length` request parameter. -/
structure SummarizationOut where
  submitted : List Char
  minLen : ℕ
  summary : List Char
  originalLength : ℕ
  summaryLength : ℕ
  originalWords : ℕ
  summaryWords : ℕ
  compressionPct : String
deriving DecidableEq, Repr

/-- Shallow embedding of the edge function `performSummarization`.  The
model output of the inference service is passed in (`none` when the
response carries no `summary_text`, in which case the code substitutes a
fixed failure string).  The source field `compressionRatio` is rendered
here as `compressionPct`. -/
def performSummarization (text : List Char) (resp : Option (List Char)) : SummarizationOut :=
  let truncatedText := text.take 2000
  let summary := resp.getD ("Summarization failed.".toList)
  let originalWords := jsSplitWsCount text
  let summaryWords := jsSplitWsCount summary
  { submitted := truncatedText
    minLen := min 30 (truncatedText.length / 2)
    summary := summary
    originalLength := text.length
    summaryLength := summary.length
    originalWords := originalWords
    summaryWords := summaryWords
    compressionPct :=
      fmtFixed1 ((1 - (summaryWords : ℚ) / (originalWords : ℚ)) * 100) ++ "%" }

/-- Claim C6: the text submitted to the summarization service is the input
truncated to at most 2000 characters, while `originalWords` and the
compression percentage string are computed from the word count of the full
untruncated input text and the returned summary. -/
theorem c6_summarization_truncation (text : List Char) (resp : Option (List Char)) :
    (performSummarization text resp).submitted = text.take 2000 ∧
    (performSummarization text resp).submitted.length ≤ 2000 ∧
    (performSummarization text resp).originalWords = jsSplitWsCount text ∧
    (performSummarization text resp).compressionPct =
      fmtFixed1 ((1 - ((jsSplitWsCount (performSummarization text resp).summary : ℚ) /
        (jsSplitWsCount text : ℚ))) * 100) ++ "%" := by
  refine ⟨rfl, ?_, rfl, rfl⟩
  show (text.take 2000).length ≤ 2000
  rw [List.length_take]
  exact min_le_left _ _

/-- An entity as typed by `calculateCompletenessScore`
(`Array<{ type: string }>`). -/
structure TypeOnlyEntity where
  type : String
deriving DecidableEq, Repr

/-- Shape of the value returned by `calculateCompletenessScore`. -/
structure CompletenessOut where
  score : ℚ
  matched : ℕ
  total : ℕ
  missing : List String
deriving DecidableEq, Repr

/-- The schema-dependent required-type checklist of
`calculateCompletenessScore`: probe for biomedical marker tags, then select
the fixed checklist. -/
def requiredTypesFor (entities : List TypeOnlyEntity) : List String :=
  let hasBiomedicalTags := entities.any fun e =>
    e.type ∈ ["Sign_symptom", "Diagnostic_procedure", "Medication"]
  if hasBiomedicalTags then
    ["Sign_symptom", "Diagnostic_procedure", "Biological_structure"]
  else
    ["TUMOR_SIZE", "TUMOR_TYPE", "RECEPTOR_STATUS", "STAGE"]

/-- Shallow embedding of `calculateCompletenessScore` from lib/utils.ts.
JavaScript `Set` membership is list membership here. -/
def calculateCompletenessScore (entities : List TypeOnlyEntity) : CompletenessOut :=
  let requiredTypes := requiredTypesFor entities
  let extractedTypes := entities.map TypeOnlyEntity.type
  let matchedTypes := requiredTypes.filter (fun t => t ∈ extractedTypes)
  { score :=
      if 0 < requiredTypes.length then
        ((matchedTypes.length : ℚ) / (requiredTypes.length : ℚ)) * 100
      else 0
    matched := matchedTypes.length
    total := requiredTypes.length
    missing := requiredTypes.filter (fun t => t ∉ extractedTypes) }

lemma requiredTypesFor_pos (entities : List TypeOnlyEntity) :
    0 < (requiredTypesFor entities).length := by
  have h : ∀ b : Bool,
      0 < (if b then
        (["Sign_symptom", "Diagnostic_procedure", "Biological_structure"] : List String)
      else ["TUMOR_SIZE", "TUMOR_TYPE", "RECEPTOR_STATUS", "STAGE"]).length := by
    intro b; cases b <;> simp
  exact h _

/-- Claim C8: the completeness score equals
`matchedRequiredTypes / totalRequiredTypes * 100` over the schema-dependent
checklist, the missing subset of required types is returned, and the score
always lies in the interval from 0 to 100. -/
theorem c8_completeness_score (entities : List TypeOnlyEntity) :
    (calculateCompletenessScore entities).score =
      ((calculateCompletenessScore entities).matched : ℚ) /
        ((calculateCompletenessScore entities).total : ℚ) * 100 ∧
    (calculateCompletenessScore entities).total = (requiredTypesFor entities).length ∧
    (calculateCompletenessScore entities).missing =
      (requiredTypesFor entities).filter
        (fun t => t ∉ entities.map TypeOnlyEntity.type) ∧
    0 ≤ (calculateCompletenessScore entities).score ∧
    (calculateCompletenessScore entities).score ≤ 100 := by
  have hT := requiredTypesFor_pos entities
  have hm : ((requiredTypesFor entities).filter
      (fun t => t ∈ entities.map TypeOnlyEntity.type)).length ≤
      (requiredTypesFor entities).length := List.length_filter_le _ _
  have hscore : (calculateCompletenessScore entities).score =
      (((requiredTypesFor entities).filter
        (fun t => t ∈ entities.map TypeOnlyEntity.type)).length : ℚ) /
        ((requiredTypesFor entities).length : ℚ) * 100 := by
    simp [calculateCompletenessScore, hT]
  refine ⟨by simpa [calculateCompletenessScore] using hscore, rfl, rfl, ?_, ?_⟩
  · rw [hscore]; positivity
  · rw [hscore]
    have hTQ : (0 : ℚ) < ((requiredTypesFor entities).length : ℚ) := by
      exact_mod_cast hT
    have h1 : (((requiredTypesFor entities).filter
        (fun t => t ∈ entities.map TypeOnlyEntity.type)).length : ℚ) /
        ((requiredTypesFor entities).length : ℚ) ≤ 1 := by
      rw [div_le_one hTQ]
      exact_mod_cast hm
    nlinarith

/-- An entity as typed by `generateInsights`
(`Array<{ type: string; confidence: number }>`). -/
structure TypeConfEntity where
  type : String
  confidence : ℚ
deriving DecidableEq, Repr

/-- The running average confidence computed at the top of
`generateInsights`: mean of the confidences, `0` for an empty list. -/
def insightAvgConf (entities : List TypeConfEntity) : ℚ :=
  if 0 < entities.length then
    (entities.map TypeConfEntity.confidence).sum / (entities.length : ℚ)
  else 0

/-- The low-confidence band message of `generateInsights`. -/
def lowConfidenceMsg : String := "⚠ Low confidence extraction (<70%)"

/-- Shallow embedding of `generateInsights` from lib/utils.ts: optional
rule-based insight messages in source order, followed by exactly one
confidence-band message. -/
def generateInsights (entities : List TypeConfEntity) : List String :=
  let entityTypes := entities.map TypeConfEntity.type
  let avgConfidence := insightAvgConf entities
  let tumorMsgs :=
    if "TUMOR_SIZE" ∈ entityTypes ∧ "TUMOR_TYPE" ∈ entityTypes then
      ["✓ Complete tumor characterization detected"]
    else []
  let receptorMsgs :=
    if "RECEPTOR_STATUS" ∈ entityTypes then
      if 3 ≤ (entities.filter (fun e => e.type = "RECEPTOR_STATUS")).length then
        ["✓ Comprehensive receptor panel identified"]
      else []
    else []
  let signMsgs :=
    if "Sign_symptom" ∈ entityTypes then
      ["✓ Identified " ++
        toString (entities.filter (fun e => e.type = "Sign_symptom")).length ++
        " clinical signs/symptoms"]
    else []
  let diagMsgs :=
    if "Diagnostic_procedure" ∈ entityTypes then
      ["✓ Diagnostic procedures documented"]
    else []
  let therapyMsgs :=
    if "Medication" ∈ entityTypes ∨ "Therapeutic_procedure" ∈ entityTypes then
      ["✓ Therapeutic interventions identified"]
    else []
  let bandMsg :=
    if 17 / 20 < avgConfidence then "✓ High confidence extraction (>85%)"
    else if 7 / 10 < avgConfidence then "○ Moderate confidence extraction (70-85%)"
    else lowConfidenceMsg
  tumorMsgs ++ receptorMsgs ++ signMsgs ++ diagMsgs ++ therapyMsgs ++ [bandMsg]

/-- Claim C10: insight generation is total on the empty entity list: the
average confidence used for banding is 0, the output on zero entities is
exactly the single low-confidence-band message, and the returned insight
list is nonempty for every input. -/
theorem c10_insights_total :
    insightAvgConf [] = 0 ∧
    generateInsights [] = [lowConfidenceMsg] ∧
    ∀ entities : List TypeConfEntity, generateInsights entities ≠ [] := by
  refine ⟨by simp [insightAvgConf], ?_, ?_⟩
  · simp [generateInsights, insightAvgConf]
    norm_num
  · intro entities h
    simp [generateInsights] at h

/-- Witness for C10 at a concrete nonempty input. -/
theorem c10_witness :
    generateInsights [TypeConfEntity.mk "Medication" (9/10)] ≠ [] :=
  c10_insights_total.2.2 [TypeConfEntity.mk "Medication" (9/10)]

/-- Shallow embedding of the edge-function helper `varyEntities`.  The
JavaScript code draws one `Math.random()` per entity to decide dropping and
then one per survivor to jitter its confidence; those draws are passed in
as the streams `dropR` and `noiseR`, indexed by position in the respective
pass. -/
def varyEntities (es : List Entity) (dropRate noiseLevel : ℚ)
    (dropR noiseR : ℕ → ℚ) : List Entity :=
  let kept := (es.enum.filter fun p => dropRate < dropR p.1).map Prod.snd
  kept.enum.map fun p =>
    { p.2 with
      confidence := max 0 (min 1 (p.2.confidence + (noiseR p.1 - 1/2) * noiseLevel)) }

/-- One per-model entry of the comparison result. -/
structure ModelResult where
  model : String
  entityCount : ℕ
  avgConfidence : ℚ
  entities : List Entity
  entityTypes : List String
deriving DecidableEq, Repr

/-- The recommendation entry of the comparison result. -/
structure Recommendation where
  model : String
  reason : String
deriving DecidableEq, Repr

/-- Shape of the value returned by `performComparison`. -/
structure ComparisonOut where
  models : List ModelResult
  recommendation : Recommendation
deriving DecidableEq, Repr

/-- The per-model statistics block of `performComparison` (`results`):
count, `toFixed(4)`-rounded mean confidence and distinct types are
recomputed from the variant entity set. -/
def mkModelResult (name : String) (es : List Entity) : ModelResult :=
  let avgConf :=
    if 0 < es.length then (es.map Entity.confidence).sum / (es.length : ℚ) else 0
  { model := name
    entityCount := es.length
    avgConfidence := round4 avgConf
    entities := es
    entityTypes := jsSetDedup (es.map Entity.type) }

/-- The comparison heuristic `entityCount * avgConfidence`. -/
def modelScore (m : ModelResult) : ℚ := (m.entityCount : ℚ) * m.avgConfidence

/-- Shallow embedding of the edge function `performComparison`.  The
gold-standard result of the single real `performNER` call is passed in as
`base`; the random draws consumed by the two `varyEntities` calls are the
streams `d1 n1` (ClinicalBERT variant) and `d2 n2` (PubMedBERT variant).
The `reduce` over `results` with a strict greater-than comparison keeps the
earliest maximum. -/
def performComparison (base : NERResult) (d1 n1 d2 n2 : ℕ → ℚ) : ComparisonOut :=
  let biobertEntities := base.entities
  let clinicalbertEntities := varyEntities base.entities (1/10) (1/20) d1 n1
  let pubmedbertEntities := varyEntities base.entities (1/20) (1/10) d2 n2
  let r0 := mkModelResult "BioBERT" biobertEntities
  let r1 := mkModelResult "ClinicalBERT" clinicalbertEntities
  let r2 := mkModelResult "PubMedBERT" pubmedbertEntities
  let bestModel := [r1, r2].foldl
    (fun prev current => if modelScore prev < modelScore current then current else prev) r0
  { models := [r0, r1, r2]
    recommendation :=
      { model := bestModel.model
        reason := "Best performance with " ++ toString bestModel.entityCount ++
          " entities and " ++ fmtFixed1 (bestModel.avgConfidence * 100) ++
          "% confidence." } }

/-- Claim C7: `performComparison` derives exactly 3 labeled variants from
the single gold-standard result, variant 0 carries the gold-standard
entities unmodified, each variant's statistics are recomputed from its own
entity set, and the recommendation names the variant maximizing
`entityCount * avgConfidence` with ties broken in favor of the earliest
variant index. -/
theorem c7_comparison_variants (base : NERResult) (d1 n1 d2 n2 : ℕ → ℚ) :
    (performComparison base d1 n1 d2 n2).models.length = 3 ∧
    ((performComparison base d1 n1 d2 n2).models.head?.map ModelResult.entities) =
      some base.entities ∧
    (∀ m ∈ (performComparison base d1 n1 d2 n2).models,
      m.entityCount = m.entities.length ∧
      m.avgConfidence = round4 (confMean m.entities) ∧
      m.entityTypes = jsSetDedup (m.entities.map Entity.type)) ∧
    (∃ k, ∃ hk : k < (performComparison base d1 n1 d2 n2).models.length,
      (performComparison base d1 n1 d2 n2).recommendation.model =
        ((performComparison base d1 n1 d2 n2).models.get ⟨k, hk⟩).model ∧
      (∀ j (hj : j < (performComparison base d1 n1 d2 n2).models.length),
        modelScore ((performComparison base d1 n1 d2 n2).models.get ⟨j, hj⟩) ≤
          modelScore ((performComparison base d1 n1 d2 n2).models.get ⟨k, hk⟩)) ∧
      (∀ j (hj : j < (performComparison base d1 n1 d2 n2).models.length), j < k →
        modelScore ((performComparison base d1 n1 d2 n2).models.get ⟨j, hj⟩) <
          modelScore ((performComparison base d1 n1 d2 n2).models.get ⟨k, hk⟩))) := by
  refine ⟨rfl, rfl, ?_, ?_⟩
  · intro m hm
    have hcases :
        m = mkModelResult "BioBERT" base.entities ∨
        m = mkModelResult "ClinicalBERT" (varyEntities base.entities (1/10) (1/20) d1 n1) ∨
        m = mkModelResult "PubMedBERT" (varyEntities base.entities (1/20) (1/10) d2 n2) := by
      simpa [performComparison] using hm
    rcases hcases with h | h | h <;>
      subst h <;>
      exact ⟨rfl, by simp [mkModelResult, confMean], rfl⟩
  · let r0 := mkModelResult "BioBERT" base.entities
    let r1 := mkModelResult "ClinicalBERT" (varyEntities base.entities (1/10) (1/20) d1 n1)
    let r2 := mkModelResult "PubMedBERT" (varyEntities base.entities (1/20) (1/10) d2 n2)
    have hfold : ∀ x : ModelResult,
        ([r1, r2].foldl
          (fun prev current =>
            if modelScore prev < modelScore current then current else prev) x) =
        (if modelScore (if modelScore x < modelScore r1 then r1 else x) < modelScore r2
          then r2 else (if modelScore x < modelScore r1 then r1 else x)) := by
      intro x; rfl
    by_cases h01 : modelScore r0 < modelScore r1
    · by_cases h12 : modelScore r1 < modelScore r2
      · refine ⟨2, by exact (by omega : (2:ℕ) < 3), ?_, ?_, ?_⟩
        · show ([r1, r2].foldl
            (fun prev current =>
              if modelScore prev < modelScore current then current else prev) r0).model =
            r2.model
          rw [hfold, if_pos h01, if_pos h12]
        · intro j hj
          have hj3 : j < 3 := hj
          interval_cases j
          · exact le_of_lt (h01.trans h12)
          · exact le_of_lt h12
          · exact le_refl _
        · intro j hj hjk
          have hj2 : j < 2 := hjk
          interval_cases j
          · exact h01.trans h12
          · exact h12
      · refine ⟨1, by exact (by omega : (1:ℕ) < 3), ?_, ?_, ?_⟩
        · show ([r1, r2].foldl
            (fun prev current =>
              if modelScore prev < modelScore current then current else prev) r0).model =
            r1.model
          rw [hfold, if_pos h01, if_neg h12]
        · intro j hj
          have hj3 : j < 3 := hj
          interval_cases j
          · exact le_of_lt h01
          · exact le_refl _
          · exact le_of_not_lt h12
        · intro j hj hjk
          have hj1 : j < 1 := hjk
          interval_cases j
          · exact h01
    · by_cases h02 : modelScore r0 < modelScore r2
      · refine ⟨2, by exact (by omega : (2:ℕ) < 3), ?_, ?_, ?_⟩
        · show ([r1, r2].foldl
            (fun prev current =>
              if modelScore prev < modelScore current then current else prev) r0).model =
            r2.model
          rw [hfold, if_neg h01, if_pos h02]
        · intro j hj
          have hj3 : j < 3 := hj
          interval_cases j
          · exact le_of_lt h02
          · exact le_trans (le_of_not_lt h01) (le_of_lt h02)
          · exact le_refl _
        · intro j hj hjk
          have hj2 : j < 2 := hjk
          interval_cases j
          · exact h02
          · exact lt_of_le_of_lt (le_of_not_lt h01) h02
      · refine ⟨0, by exact (by omega : (0:ℕ) < 3), ?_, ?_, ?_⟩
        · show ([r1, r2].foldl
            (fun prev current =>
              if modelScore prev < modelScore current then current else prev) r0).model =
            r0.model
          rw [hfold, if_neg h01, if_neg h02]
        · intro j hj
          have hj3 : j < 3 := hj
          interval_cases j
          · exact le_refl _
          · exact le_of_not_lt h01
          · exact le_of_not_lt h02
        · intro j hj hjk
          omega

/-- Witness for C7 at a concrete gold-standard result (one entity) and
constant random streams that keep every entity. -/
theorem c7_witness :
    (performComparison (performNER (some [RawEntity.mk "aspirin" "Medication" (9/10) 0 7])
        (1/2)) (fun _ => 1) (fun _ => 1/2) (fun _ => 1) (fun _ => 1/2)).models.length = 3 ∧
    ((performComparison (performNER (some [RawEntity.mk "aspirin" "Medication" (9/10) 0 7])
        (1/2)) (fun _ => 1) (fun _ => 1/2) (fun _ => 1) (fun _ => 1/2)).models.head?.map
        ModelResult.entities) =
      some (performNER (some [RawEntity.mk "aspirin" "Medication" (9/10) 0 7])
        (1/2)).entities ∧
    (∀ m ∈ (performComparison (performNER (some [RawEntity.mk "aspirin" "Medication" (9/10) 0 7])
        (1/2)) (fun _ => 1) (fun _ => 1/2) (fun _ => 1) (fun _ => 1/2)).models,
      m.entityCount = m.entities.length ∧
      m.avgConfidence = round4 (confMean m.entities) ∧
      m.entityTypes = jsSetDedup (m.entities.map Entity.type)) ∧
    (∃ k, ∃ hk : k < (performComparison (performNER
        (some [RawEntity.mk "aspirin" "Medication" (9/10) 0 7])
        (1/2)) (fun _ => 1) (fun _ => 1/2) (fun _ => 1) (fun _ => 1/2)).models.length,
      (performComparison (performNER (some [RawEntity.mk "aspirin" "Medication" (9/10) 0 7])
        (1/2)) (fun _ => 1) (fun _ => 1/2) (fun _ => 1) (fun _ => 1/2)).recommendation.model =
        ((performComparison (performNER (some [RawEntity.mk "aspirin" "Medication" (9/10) 0 7])
          (1/2)) (fun _ => 1) (fun _ => 1/2) (fun _ => 1) (fun _ => 1/2)).models.get
          ⟨k, hk⟩).model ∧
      (∀ j (hj : j < (performComparison (performNER
          (some [RawEntity.mk "aspirin" "Medication" (9/10) 0 7])
          (1/2)) (fun _ => 1) (fun _ => 1/2) (fun _ => 1) (fun _ => 1/2)).models.length),
        modelScore ((performComparison (performNER
          (some [RawEntity.mk "aspirin" "Medication" (9/10) 0 7])
          (1/2)) (fun _ => 1) (fun _ => 1/2) (fun _ => 1) (fun _ => 1/2)).models.get ⟨j, hj⟩) ≤
          modelScore ((performComparison (performNER
            (some [RawEntity.mk "aspirin" "Medication" (9/10) 0 7])
            (1/2)) (fun _ => 1) (fun _ => 1/2) (fun _ => 1) (fun _ => 1/2)).models.get
            ⟨k, hk⟩)) ∧
      (∀ j (hj : j < (performComparison (performNER
          (some [RawEntity.mk "aspirin" "Medication" (9/10) 0 7])
          (1/2)) (fun _ => 1) (fun _ => 1/2) (fun _ => 1) (fun _ => 1/2)).models.length),
        j < k →
        modelScore ((performComparison (performNER
          (some [RawEntity.mk "aspirin" "Medication" (9/10) 0 7])
          (1/2)) (fun _ => 1) (fun _ => 1/2) (fun _ => 1) (fun _ => 1/2)).models.get ⟨j, hj⟩) <
          modelScore ((performComparison (performNER
            (some [RawEntity.mk "aspirin" "Medication" (9/10) 0 7])
            (1/2)) (fun _ => 1) (fun _ => 1/2) (fun _ => 1) (fun _ => 1/2)).models.get
            ⟨k, hk⟩))) :=
  c7_comparison_variants
    (performNER (some [RawEntity.mk "aspirin" "Medication" (9/10) 0 7]) (1/2))
    (fun _ => 1) (fun _ => 1/2) (fun _ => 1) (fun _ => 1/2)

/-- One submitted batch item together with the outcomes of its two external
interactions: text extraction (PDF/DOCX reading) and the `performNER` API
call on the extracted text.  The orchestrator consults `inference` only
when `extraction` succeeded. -/
structure BatchInput where
  filename : String
  extraction : Except String (List Char)
  inference : Except String NERResult

/-- One entry of the `batchResults` array built by `handleBatchProcess`.
Optional fields are absent (`none`) on failure entries, mirroring the
object literals pushed by the source. -/
structure BatchResult where
  filename : String
  success : Bool
  entityCount : Option ℕ
  avgConfidence : Option ℚ
  entities : Option (List Entity)
  entitySummary : Option (List (String × ℕ))
  error : Option String
deriving DecidableEq, Repr

/-- JavaScript `acc[t] = (acc[t] || 0) + 1` on an insertion-ordered object,
as an association list update. -/
def bumpType (acc : List (String × ℕ)) (t : String) : List (String × ℕ) :=
  match acc with
  | [] => [(t, 1)]
  | (k, n) :: rest => if k = t then (k, n + 1) :: rest else (k, n) :: bumpType rest t

/-- The `summary` reduce of `handleBatchProcess`: per-type entity counts in
first-seen key order. -/
def countByType (es : List Entity) : List (String × ℕ) :=
  es.foldl (fun acc e => bumpType acc e.type) []

/-- The mutable state of `handleBatchProcess` that the loop updates:
`successCount`, `totalEntities`, the running `avgConfidence`, the
`progress` percentage, the loop index and the accumulated results. -/
structure BatchState where
  successCount : ℕ
  totalEntities : ℕ
  avgConfidence : ℚ
  progress : ℤ
  idx : ℕ
  results : List BatchResult
deriving DecidableEq, Repr

/-- The state at the start of a batch run: counters reset by
`handleBatchProcess`, the progress value reset by the preceding file
selection, and an empty `batchResults` array. -/
def initBatchState : BatchState :=
  { successCount := 0, totalEntities := 0, avgConfidence := 0,
    progress := 0, idx := 0, results := [] }

/-- One iteration of the `for` loop of `handleBatchProcess` (n is
`files.length`).  Extraction failure pushes a failure entry and continues
with the next item — skipping the `setProgress` call at the bottom of the
loop body.  Inference failure pushes a failure entry and falls through to
the progress update.  Success pushes a success entry, bumps the counters,
applies the incremental-mean update with the raw loop index, and updates
progress.  The persistence insert is modelled as non-failing (the
persistence collaborator is external to this core). -/
def batchStep (n : ℕ) (st : BatchState) (item : BatchInput) : BatchState :=
  match item.extraction with
  | Except.error e =>
      { st with
        results := st.results ++
          [⟨item.filename, false, none, none, none, none,
            some ("File reading failed: " ++ e)⟩]
        idx := st.idx + 1 }
  | Except.ok _text =>
      match item.inference with
      | Except.error e =>
          { st with
            results := st.results ++
              [⟨item.filename, false, none, none, none, none, some e⟩]
            progress := round ((((st.idx + 1 : ℕ) : ℚ) / (n : ℚ)) * 100)
            idx := st.idx + 1 }
      | Except.ok r =>
          { st with
            results := st.results ++
              [⟨item.filename, true, some r.entityCount, some r.avgConfidence,
                some r.entities, some (countByType r.entities), none⟩]
            successCount := st.successCount + 1
            totalEntities := st.totalEntities + r.entityCount
            avgConfidence :=
              (st.avgConfidence * (st.idx : ℚ) + r.avgConfidence) / ((st.idx : ℚ) + 1)
            progress := round ((((st.idx + 1 : ℕ) : ℚ) / (n : ℚ)) * 100)
            idx := st.idx + 1 }

/-- The loop of `handleBatchProcess` from an arbitrary starting state. -/
def runBatchAux (n : ℕ) (st : BatchState) (items : List BatchInput) : BatchState :=
  items.foldl (batchStep n) st

/-- A full batch run of `handleBatchProcess` over the submitted files. -/
def runBatch (items : List BatchInput) : BatchState :=
  runBatchAux items.length initBatchState items

/-- The single `batchResults` entry produced for one item, as a function of
that item alone. -/
def itemResult (item : BatchInput) : BatchResult :=
  match item.extraction with
  | Except.error e =>
      ⟨item.filename, false, none, none, none, none,
        some ("File reading failed: " ++ e)⟩
  | Except.ok _ =>
      match item.inference with
      | Except.error e => ⟨item.filename, false, none, none, none, none, some e⟩
      | Except.ok r =>
          ⟨item.filename, true, some r.entityCount, some r.avgConfidence,
            some r.entities, some (countByType r.entities), none⟩

/-- Whether both external interactions of an item succeed. -/
def itemOk (item : BatchInput) : Bool :=
  match item.extraction, item.inference with
  | Except.ok _, Except.ok _ => true
  | _, _ => false

/-- The `avgConfidence` an item contributes on success (0 on failure; a
failed item never contributes). -/
def succConf (item : BatchInput) : ℚ :=
  match item.inference with
  | Except.ok r => r.avgConfidence
  | Except.error _ => 0

lemma batchStep_results (n : ℕ) (st : BatchState) (item : BatchInput) :
    (batchStep n st item).results = st.results ++ [itemResult item] := by
  unfold batchStep itemResult
  rcases item.extraction with e | t
  · rfl
  · rcases item.inference with e | r <;> rfl

lemma batchStep_idx (n : ℕ) (st : BatchState) (item : BatchInput) :
    (batchStep n st item).idx = st.idx + 1 := by
  unfold batchStep
  rcases item.extraction with e | t
  · rfl
  · rcases item.inference with e | r <;> rfl

lemma runBatchAux_results (n : ℕ) (items : List BatchInput) :
    ∀ st : BatchState,
      (runBatchAux n st items).results = st.results ++ items.map itemResult := by
  induction items with
  | nil => intro st; simp [runBatchAux]
  | cons item rest ih =>
      intro st
      have h : runBatchAux n st (item :: rest) = runBatchAux n (batchStep n st item) rest := rfl
      rw [h, ih, batchStep_results]
      simp

lemma runBatchAux_idx (n : ℕ) (items : List BatchInput) :
    ∀ st : BatchState, (runBatchAux n st items).idx = st.idx + items.length := by
  induction items with
  | nil => intro st; simp [runBatchAux]
  | cons item rest ih =>
      intro st
      have h : runBatchAux n st (item :: rest) = runBatchAux n (batchStep n st item) rest := rfl
      rw [h, ih, batchStep_idx]
      simp only [List.length_cons]
      omega

/-- Claim C2: every batch produces exactly one result entry per submitted
item, in submission order, each entry a function of its own item only (so
no failure aborts the batch or affects later items); extraction failures
are recorded with the extraction error message and inference failures with
the inference error message, and in both failure cases the result fields
stay unset. -/
theorem c2_failure_isolation (items : List BatchInput) :
    (runBatch items).results.length = items.length ∧
    (∀ i : ℕ, (runBatch items).results.get? i = (items.get? i).map itemResult) ∧
    (∀ item : BatchInput, ∀ e : String, item.extraction = Except.error e →
      itemResult item =
        ⟨item.filename, false, none, none, none, none,
          some ("File reading failed: " ++ e)⟩) ∧
    (∀ item : BatchInput, ∀ t : List Char, ∀ e : String,
      item.extraction = Except.ok t → item.inference = Except.error e →
      itemResult item = ⟨item.filename, false, none, none, none, none, some e⟩) := by
  have hres : (runBatch items).results = items.map itemResult := by
    rw [runBatch, runBatchAux_results]
    rfl
  refine ⟨by rw [hres]; simp, ?_, ?_, ?_⟩
  · intro i
    rw [hres]
    exact List.get?_map itemResult items i
  · intro item e he
    unfold itemResult
    rw [he]
  · intro item t e ht he
    unfold itemResult
    rw [ht, he]

/-- A concrete item whose extraction and inference both succeed. -/
def wItemOk : BatchInput :=
  ⟨"a.pdf", Except.ok ("text a".toList),
    Except.ok (performNER (some [RawEntity.mk "aspirin" "Medication" (9/10) 0 7]) (1/2))⟩

/-- A concrete item whose text extraction fails. -/
def wItemBadExtract : BatchInput :=
  ⟨"b.pdf", Except.error "boom", Except.error "never consulted"⟩

/-- A concrete item whose extraction succeeds but whose inference call
fails. -/
def wItemBadInfer : BatchInput :=
  ⟨"c.pdf", Except.ok ("text c".toList), Except.error "Analysis failed"⟩

/-- Witness for C2 on a concrete three-item batch with one extraction
failure and one inference failure. -/
theorem c2_witness :
    (runBatch [wItemOk, wItemBadExtract, wItemBadInfer]).results.length = 3 ∧
    (runBatch [wItemOk, wItemBadExtract, wItemBadInfer]).results.get? 1 =
      some (itemResult wItemBadExtract) ∧
    itemResult wItemBadExtract =
      ⟨"b.pdf", false, none, none, none, none,
        some ("File reading failed: " ++ "boom")⟩ ∧
    itemResult wItemBadInfer =
      ⟨"c.pdf", false, none, none, none, none, some "Analysis failed"⟩ := by
  refine ⟨(c2_failure_isolation [wItemOk, wItemBadExtract, wItemBadInfer]).1, ?_, ?_, ?_⟩
  · have h := (c2_failure_isolation [wItemOk, wItemBadExtract, wItemBadInfer]).2.1 1
    simpa using h
  · exact (c2_failure_isolation [wItemOk, wItemBadExtract, wItemBadInfer]).2.2.1
      wItemBadExtract "boom" rfl
  · exact (c2_failure_isolation [wItemOk, wItemBadExtract, wItemBadInfer]).2.2.2
      wItemBadInfer ("text c".toList) "Analysis failed" rfl rfl

lemma itemOk_elim (item : BatchInput) (h : itemOk item = true) :
    ∃ t r, item.extraction = Except.ok t ∧ item.inference = Except.ok r := by
  unfold itemOk at h
  rcases hx : item.extraction with e | t <;> rcases hi : item.inference with e2 | r <;>
    rw [hx, hi] at h <;> simp at h
  exact ⟨t, r, rfl, rfl⟩

lemma batchStep_avg_ok (n : ℕ) (st : BatchState) (item : BatchInput)
    (t : List Char) (r : NERResult)
    (hx : item.extraction = Except.ok t) (hi : item.inference = Except.ok r) :
    (batchStep n st item).avgConfidence =
      (st.avgConfidence * (st.idx : ℚ) + r.avgConfidence) / ((st.idx : ℚ) + 1) := by
  unfold batchStep
  rw [hx, hi]

lemma batchStep_avg_not_ok (n : ℕ) (st : BatchState) (item : BatchInput)
    (h : itemOk item = false) :
    (batchStep n st item).avgConfidence = st.avgConfidence := by
  unfold batchStep
  unfold itemOk at h
  rcases hx : item.extraction with e | t
  · rfl
  · rcases hi : item.inference with e2 | r
    · rfl
    · rw [hx, hi] at h; simp at h

lemma runBatchAux_avg_all_ok (n : ℕ) (items : List BatchInput) :
    ∀ st : BatchState, (∀ item ∈ items, itemOk item = true) →
      (runBatchAux n st items).avgConfidence * ((st.idx : ℚ) + items.length) =
        st.avgConfidence * (st.idx : ℚ) + (items.map succConf).sum := by
  induction items with
  | nil => intro st _; simp [runBatchAux]
  | cons item rest ih =>
      intro st hall
      obtain ⟨t, r, hx, hi⟩ := itemOk_elim item (hall item (by simp))
      have hstep : runBatchAux n st (item :: rest) =
          runBatchAux n (batchStep n st item) rest := rfl
      have hrest : ∀ it ∈ rest, itemOk it = true := fun it hit => hall it (by simp [hit])
      have hIH := ih (batchStep n st item) hrest
      rw [hstep]
      rw [batchStep_idx, batchStep_avg_ok n st item t r hx hi] at hIH
      have hne : ((st.idx : ℚ) + 1) ≠ 0 := by positivity
      have hclear : (st.avgConfidence * (st.idx : ℚ) + r.avgConfidence) /
          ((st.idx : ℚ) + 1) * ((st.idx : ℚ) + 1) =
          st.avgConfidence * (st.idx : ℚ) + r.avgConfidence :=
        div_mul_cancel₀ _ hne
      have hsc : succConf item = r.avgConfidence := by
        unfold succConf; rw [hi]
      have hcast : ((st.idx + 1 : ℕ) : ℚ) = (st.idx : ℚ) + 1 := by push_cast; ring
      rw [hcast] at hIH
      have hgoal : (runBatchAux n (batchStep n st item) rest).avgConfidence *
          (((st.idx : ℚ) + 1) + (rest.length : ℚ)) =
          st.avgConfidence * (st.idx : ℚ) + r.avgConfidence + (rest.map succConf).sum := by
        calc (runBatchAux n (batchStep n st item) rest).avgConfidence *
            (((st.idx : ℚ) + 1) + (rest.length : ℚ)) =
            (st.avgConfidence * (st.idx : ℚ) + r.avgConfidence) / ((st.idx : ℚ) + 1) *
              ((st.idx : ℚ) + 1) + (rest.map succConf).sum := hIH
          _ = st.avgConfidence * (st.idx : ℚ) + r.avgConfidence + (rest.map succConf).sum := by
              rw [hclear]
      have hlen : ((item :: rest).length : ℚ) = (rest.length : ℚ) + 1 := by
        simp [List.length_cons]
      rw [hlen]
      have hsum : ((item :: rest).map succConf).sum =
          succConf item + (rest.map succConf).sum := by simp
      rw [hsum, hsc]
      linarith [hgoal]

lemma runBatchAux_avg_all_fail (n : ℕ) (items : List BatchInput) :
    ∀ st : BatchState, (∀ item ∈ items, itemOk item = false) →
      (runBatchAux n st items).avgConfidence = st.avgConfidence := by
  induction items with
  | nil => intro st _; rfl
  | cons item rest ih =>
      intro st hall
      have hstep : runBatchAux n st (item :: rest) =
          runBatchAux n (batchStep n st item) rest := rfl
      rw [hstep, ih (batchStep n st item) (fun it hit => hall it (by simp [hit])),
        batchStep_avg_not_ok n st item (hall item (by simp))]

/-- Claim C1 as amended: on a successful item the aggregate is updated by
`(aggregate * i + result.avgConfidence) / (i + 1)` with the raw loop index
`i`; this incremental update reproduces the simple arithmetic mean of the
succeeded items' average confidences whenever no failed item precedes a
succeeded one (in particular for all-success batches), the situation in
which index and success count coincide. -/
theorem c1_incremental_mean_amended :
    (∀ (n : ℕ) (st : BatchState) (item : BatchInput) (t : List Char) (r : NERResult),
      item.extraction = Except.ok t → item.inference = Except.ok r →
      (batchStep n st item).avgConfidence =
        (st.avgConfidence * (st.idx : ℚ) + r.avgConfidence) / ((st.idx : ℚ) + 1)) ∧
    (∀ good bad : List BatchInput,
      (∀ item ∈ good, itemOk item = true) →
      (∀ item ∈ bad, itemOk item = false) →
      good ≠ [] →
      (runBatch (good ++ bad)).avgConfidence =
        (good.map succConf).sum / (good.length : ℚ)) := by
  refine ⟨batchStep_avg_ok, ?_⟩
  intro good bad hgood hbad hne
  have hsplit : runBatch (good ++ bad) =
      runBatchAux (good ++ bad).length
        (runBatchAux (good ++ bad).length initBatchState good) bad := by
    rw [runBatch, runBatchAux, runBatchAux, runBatchAux, List.foldl_append]
  rw [hsplit, runBatchAux_avg_all_fail _ bad _ hbad]
  have h := runBatchAux_avg_all_ok (good ++ bad).length good initBatchState hgood
  have hidx0 : (initBatchState.idx : ℚ) = 0 := by rfl
  have havg0 : initBatchState.avgConfidence = 0 := rfl
  rw [hidx0, havg0, zero_add, zero_mul, zero_add] at h
  have hlen : ((good.length : ℕ) : ℚ) ≠ 0 := by
    simpa using fun hz => hne (List.length_eq_zero.mp hz)
  rw [eq_div_iff hlen]
  exact h

/-- Claim C1, counterexample: in a two-item batch where item 0 fails
extraction and item 1 succeeds with average confidence 1, the running
aggregate ends at `(0 * 1 + 1) / 2 = 1/2`, while the simple arithmetic
mean over the succeeded items is `1`; the incremental update with the raw
loop index does not reproduce the mean of the succeeded items. -/
theorem c1_counterexample :
    (runBatch [⟨"bad.pdf", Except.error "corrupt", Except.error "never consulted"⟩,
      ⟨"good.pdf", Except.ok ("x".toList),
        Except.ok (NERResult.mk [Entity.mk "x" "T" 1 0 1] 1 1 ["T"])⟩]).avgConfidence = 1/2 ∧
    (([⟨"bad.pdf", Except.error "corrupt", Except.error "never consulted"⟩,
      ⟨"good.pdf", Except.ok ("x".toList),
        Except.ok (NERResult.mk [Entity.mk "x" "T" 1 0 1] 1 1 ["T"])⟩].filter
        (fun item : BatchInput => itemOk item)).map succConf).sum /
      ((([⟨"bad.pdf", Except.error "corrupt", Except.error "never consulted"⟩,
      ⟨"good.pdf", Except.ok ("x".toList),
        Except.ok (NERResult.mk [Entity.mk "x" "T" 1 0 1] 1 1 ["T"])⟩].filter
        (fun item : BatchInput => itemOk item)).length : ℕ) : ℚ) = 1 ∧
    (1 : ℚ)/2 ≠ 1 := by
  refine ⟨?_, ?_, by norm_num⟩
  · show ((0 : ℚ) * (1 : ℕ) + 1) / ((1 : ℕ) + 1) = 1/2
    norm_num
  · norm_num [itemOk, succConf, List.filter]

/-- Witness for C1 (amended) on a concrete batch: two successes followed by
one failed item; the final aggregate is the plain mean of the two
successful average confidences. -/
theorem c1_witness :
    (runBatch ([wItemOk, wItemOk] ++ [wItemBadExtract])).avgConfidence =
      (([wItemOk, wItemOk].map succConf).sum / (([wItemOk, wItemOk].length : ℕ) : ℚ)) :=
  c1_incremental_mean_amended.2 [wItemOk, wItemOk] [wItemBadExtract]
    (by intro item hit; fin_cases hit <;> rfl)
    (by intro item hit; fin_cases hit <;> rfl)
    (by simp)

lemma batchStep_progress_ok (n : ℕ) (st : BatchState) (item : BatchInput)
    (t : List Char) (hx : item.extraction = Except.ok t) :
    (batchStep n st item).progress = round ((((st.idx + 1 : ℕ) : ℚ) / (n : ℚ)) * 100) := by
  unfold batchStep
  rw [hx]
  rcases item.inference with e | r <;> rfl

lemma batchStep_progress_err (n : ℕ) (st : BatchState) (item : BatchInput)
    (e : String) (hx : item.extraction = Except.error e) :
    (batchStep n st item).progress = st.progress := by
  unfold batchStep
  rw [hx]

lemma runBatchAux_take_succ (n : ℕ) (items : List BatchInput) (k : ℕ)
    (hk : k < items.length) :
    runBatchAux n initBatchState (items.take (k + 1)) =
      batchStep n (runBatchAux n initBatchState (items.take k)) (items.get ⟨k, hk⟩) := by
  rw [List.take_succ, List.getElem?_eq_getElem hk]
  show List.foldl (batchStep n) initBatchState (items.take k ++ [items[k]]) = _
  rw [List.foldl_append]
  rfl

/-- Claim C3 as amended: after item `k` of `n` reaches a terminal state,
the reported progress equals `round((k + 1) / n * 100)` when that item's
text extraction succeeded (this covers both inference success and
inference failure); when extraction failed, the `continue` skips the
progress update and the progress keeps the value it had before the item. -/
theorem c3_progress_amended (items : List BatchInput) (k : ℕ) (hk : k < items.length) :
    ((∃ t, (items.get ⟨k, hk⟩).extraction = Except.ok t) →
      (runBatchAux items.length initBatchState (items.take (k + 1))).progress =
        round ((((k + 1 : ℕ) : ℚ) / ((items.length : ℕ) : ℚ)) * 100)) ∧
    (∀ e, (items.get ⟨k, hk⟩).extraction = Except.error e →
      (runBatchAux items.length initBatchState (items.take (k + 1))).progress =
        (runBatchAux items.length initBatchState (items.take k)).progress) := by
  have hidx : (runBatchAux items.length initBatchState (items.take k)).idx = k := by
    rw [runBatchAux_idx]
    show 0 + (items.take k).length = k
    rw [List.length_take]
    omega
  constructor
  · rintro ⟨t, ht⟩
    rw [runBatchAux_take_succ items.length items k hk,
      batchStep_progress_ok _ _ _ t ht, hidx]
  · intro e he
    rw [runBatchAux_take_succ items.length items k hk,
      batchStep_progress_err _ _ _ e he]

/-- Claim C3, counterexample: in a single-item batch whose item fails text
extraction, the final reported progress is still 0, not
`round((0 + 1) / 1 * 100) = 100`: the progress update is skipped on
extraction failure, so it does not happen after every terminal
transition. -/
theorem c3_counterexample :
    (runBatch [⟨"bad.pdf", Except.error "corrupt",
      Except.error "never consulted"⟩]).progress = 0 ∧
    round ((((0 + 1 : ℕ) : ℚ) / ((1 : ℕ) : ℚ)) * 100) = (100 : ℤ) ∧
    (0 : ℤ) ≠ 100 := by
  refine ⟨rfl, ?_, by norm_num⟩
  norm_num [round_eq]

/-- Witness for C3 (amended) on a concrete two-item batch: after item 0
(extraction ok) the progress is `round(1/2 * 100)`; after item 1
(extraction failed) the progress is unchanged from before the item. -/
theorem c3_witness :
    (runBatchAux ([wItemOk, wItemBadExtract] : List BatchInput).length initBatchState
        ([wItemOk, wItemBadExtract].take (0 + 1))).progress =
      round ((((0 + 1 : ℕ) : ℚ) / ((([wItemOk, wItemBadExtract] :
        List BatchInput).length : ℕ) : ℚ)) * 100) ∧
    (runBatchAux ([wItemOk, wItemBadExtract] : List BatchInput).length initBatchState
        ([wItemOk, wItemBadExtract].take (1 + 1))).progress =
      (runBatchAux ([wItemOk, wItemBadExtract] : List BatchInput).length initBatchState
        ([wItemOk, wItemBadExtract].take 1)).progress := by
  constructor
  · exact (c3_progress_amended [wItemOk, wItemBadExtract] 0 (by norm_num)).1
      ⟨"text a".toList, rfl⟩
  · exact (c3_progress_amended [wItemOk, wItemBadExtract] 1 (by norm_num)).2 "boom" rfl

/-- A JavaScript value as it can appear in a record handed to
`exportAsCSV`.  Numbers are modelled by integers (JavaScript float
rendering is outside the embedding); `vundef` is the `undefined` obtained
when a row lacks one of the header keys. -/
inductive JSValue where
  | vstr (s : List Char)
  | vnum (n : ℤ)
  | vbool (b : Bool)
  | vnull
  | vundef
  | vobj (fields : List (List Char × JSValue))
  | varr (elems : List JSValue)

/-- The JavaScript `Array.prototype.join` with a one-character separator. -/
def joinSep (c : Char) : List (List Char) → List Char
  | [] => []
  | [x] => x
  | x :: y :: rest => x ++ c :: joinSep c (y :: rest)

/-- JSON string-body escaping used by `JSON.stringify`. -/
def jsonEscape (s : List Char) : List Char :=
  s.bind fun ch =>
    if ch = '"' then ['\\', '"']
    else if ch = '\\' then ['\\', '\\']
    else if ch = '\n' then ['\\', 'n']
    else if ch = '\t' then ['\\', 't']
    else if ch = '\r' then ['\\', 'r']
    else [ch]

/-- A JSON string literal: escaped body between double quotes. -/
def jsonQuote (s : List Char) : List Char := '"' :: jsonEscape s ++ ['"']

/-- The opening curly bracket character. -/
def braceOpenChar : Char := Char.ofNat 123

/-- The closing curly bracket character. -/
def braceCloseChar : Char := Char.ofNat 125

mutual

/-- Model of `JSON.stringify` on a `JSValue` (top-level `undefined` is
rendered as `null` here; `exportAsCSV` never stringifies `undefined`
because its `typeof` is not the string `object`). -/
def jsonStringify : JSValue → List Char
  | .vstr s => jsonQuote s
  | .vnum n => (toString n).toList
  | .vbool b => if b then "true".toList else "false".toList
  | .vnull => "null".toList
  | .vundef => "null".toList
  | .vobj fields => braceOpenChar :: (joinSep ',' (jsonFields fields) ++ [braceCloseChar])
  | .varr elems => '[' :: (joinSep ',' (jsonElems elems) ++ [']'])

/-- Serialized `key:value` members of a JSON object. -/
def jsonFields : List (List Char × JSValue) → List (List Char)
  | [] => []
  | (k, v) :: rest => (jsonQuote k ++ ':' :: jsonStringify v) :: jsonFields rest

/-- Serialized elements of a JSON array. -/
def jsonElems : List JSValue → List (List Char)
  | [] => []
  | v :: rest => jsonStringify v :: jsonElems rest

end

/-- Whether JavaScript `typeof value` is the string `object` (true for
objects, arrays and `null`). -/
def typeofIsObject : JSValue → Bool
  | .vobj _ => true
  | .varr _ => true
  | .vnull => true
  | _ => false

/-- The `stringValue` computed per cell by `exportAsCSV`:
`typeof value === "object" ? JSON.stringify(value) : String(value)`. -/
def stringValue (v : JSValue) : List Char :=
  if typeofIsObject v then jsonStringify v
  else
    match v with
    | .vstr s => s
    | .vnum n => (toString n).toList
    | .vbool b => if b then "true".toList else "false".toList
    | .vundef => "undefined".toList
    | _ => []

/-- A record passed to `exportAsCSV`: keys in insertion order with their
values (JavaScript objects have unique keys; lookup takes the first
match). -/
def CSVRecord := List (List Char × JSValue)

/-- JavaScript property lookup `row[header]`. -/
def lookupField (row : CSVRecord) (h : List Char) : Option JSValue :=
  (List.find? (fun p => p.1 = h) row).map Prod.snd

/-- The serialized text of the cell for key `h` of `row` (`undefined`
renders as the string `undefined` when the key is absent). -/
def cellString (row : CSVRecord) (h : List Char) : List Char :=
  stringValue ((lookupField row h).getD JSValue.vundef)

/-- The per-field quoting of `exportAsCSV`: double every internal double
quote of the serialized value. -/
def escBody (s : List Char) : List Char :=
  s.bind fun ch => if ch = '"' then ['"', '"'] else [ch]

/-- A CSV field: the quote-doubled serialized value wrapped in double
quotes. -/
def escField (s : List Char) : List Char := '"' :: (escBody s ++ ['"'])

/-- The header-key list of a data set: the key set of the first record. -/
def headersOf : List CSVRecord → List (List Char)
  | [] => []
  | first :: _ => first.map Prod.fst

/-- One data row of the CSV output: the quoted serialized cells of `row`
under the given headers, comma-joined. -/
def csvRowLine (headers : List (List Char)) (row : CSVRecord) : List Char :=
  joinSep ',' (headers.map fun h => escField (cellString row h))

/-- Shallow embedding of `exportAsCSV` from lib/utils.ts, returning the
produced file content (`none` when the data set is empty and the function
returns without output). -/
def exportAsCSV (data : List CSVRecord) : Option (List Char) :=
  match data with
  | [] => none
  | first :: _ =>
      let headers := first.map Prod.fst
      some (joinSep '\n' (joinSep ',' headers :: data.map (csvRowLine headers)))

/-- Splitting one CSV field body after its opening quote: content up to the
closing quote with doubled quotes collapsed, plus the remaining input. -/
def parseContent : List Char → List Char × List Char
  | [] => ([], [])
  | c :: rest =>
      if c = '"' then
        match rest with
        | c2 :: rest2 =>
            if c2 = '"' then
              let p := parseContent rest2
              ('"' :: p.1, p.2)
            else ([], rest)
        | [] => ([], [])
      else
        let p := parseContent rest
        (c :: p.1, p.2)
termination_by l => l.length

lemma parseContent_len (l : List Char) : (parseContent l).2.length ≤ l.length := by
  induction l using parseContent.induct with
  | case1 => simp [parseContent]
  | case2 rest2 ih =>
      rw [parseContent.eq_def]
      simp
      omega
  | case3 c2 rest2 h => simp [parseContent, h]
  | case4 => simp [parseContent]
  | case5 c rest h ih =>
      rw [parseContent.eq_def]
      simp [h]
      omega

/-- Re-splitting a line of all-quoted CSV fields by comma, respecting
double quotes. -/
def parseFields : List Char → List (List Char)
  | [] => []
  | c :: rest =>
      if c = '"' then
        match hp : parseContent rest with
        | (f, ',' :: r2) => f :: parseFields r2
        | (f, _) => [f]
      else []
termination_by l => l.length
decreasing_by
  have hlen := parseContent_len rest
  rw [hp] at hlen
  simp at hlen
  simp
  omega

lemma parseFields_nil : parseFields [] = [] := by
  rw [parseFields.eq_def]

lemma parseContent_escBody (s rest : List Char) (h : ∀ r2 : List Char, rest ≠ '"' :: r2) :
    parseContent (escBody s ++ '"' :: rest) = (s, rest) := by
  induction s with
  | nil =>
      show parseContent ('"' :: rest) = ([], rest)
      cases rest with
      | nil => simp [parseContent]
      | cons c2 r2 =>
          have hc2 : ¬ c2 = '"' := fun hc => h r2 (by rw [hc])
          simp [parseContent, hc2]
  | cons c s ih =>
      by_cases hc : c = '"'
      · subst hc
        show parseContent ('"' :: '"' :: (escBody s ++ '"' :: rest)) = ('"' :: s, rest)
        rw [parseContent.eq_def]
        simp [ih]
      · have hexp : escBody (c :: s) ++ '"' :: rest = c :: (escBody s ++ '"' :: rest) := by
          simp [escBody, hc]
        rw [hexp, parseContent.eq_def]
        simp [hc, ih]

lemma parseFields_quoted_field (body rest : List Char)
    (h1 : parseContent body = (rest, [])) :
    parseFields ('"' :: body) = [rest] := by
  rw [parseFields.eq_def]
  dsimp only
  rw [if_pos rfl]
  split
  · rename_i f r2 heq
    rw [h1] at heq
    simp at heq
  · rename_i f snd heq hne
    rw [h1] at hne
    injection hne with heqf heqr
    rw [heqf]

lemma parseFields_quoted_comma (body f rem : List Char)
    (h1 : parseContent body = (f, ',' :: rem)) :
    parseFields ('"' :: body) = f :: parseFields rem := by
  rw [parseFields.eq_def]
  dsimp only
  rw [if_pos rfl]
  split
  · rename_i f2 r2 heq
    rw [h1] at heq
    injection heq with heqf heqr
    injection heqr with _ heqr2
    rw [heqf, heqr2]
  · rename_i f2 snd heq hne
    rw [h1] at hne
    injection hne with heqf heqr
    exact (heq rem heqr.symm).elim

lemma parseFields_escape (fields : List (List Char)) :
    parseFields (joinSep ',' (fields.map escField)) = fields := by
  induction fields with
  | nil => simp [joinSep, parseFields_nil]
  | cons f fs ih =>
      cases fs with
      | nil =>
          show parseFields ('"' :: (escBody f ++ ['"'])) = [f]
          exact parseFields_quoted_field _ _
            (parseContent_escBody f [] (by intro r2 hr; cases hr))
      | cons f2 fs2 =>
          have hexp : joinSep ',' ((f :: f2 :: fs2).map escField) =
              '"' :: (escBody f ++ '"' :: (',' :: joinSep ',' ((f2 :: fs2).map escField))) := by
            show escField f ++ ',' :: joinSep ',' ((f2 :: fs2).map escField) = _
            simp [escField, List.append_assoc]
          rw [hexp, parseFields_quoted_comma _ f _
            (parseContent_escBody f _ (by intro r2 hr; cases hr)), ih]

lemma mem_joinSep (x d : Char) :
    ∀ ls : List (List Char), x ∈ joinSep d ls → x = d ∨ ∃ l ∈ ls, x ∈ l := by
  intro ls
  induction ls with
  | nil => intro h; simp [joinSep] at h
  | cons a tail ih =>
      cases tail with
      | nil =>
          intro h
          right
          exact ⟨a, by simp, by simpa [joinSep] using h⟩
      | cons b rest =>
          intro h
          have hmem : x ∈ a ++ d :: joinSep d (b :: rest) := h
          rcases List.mem_append.mp hmem with ha | hd
          · exact Or.inr ⟨a, by simp, ha⟩
          · rcases List.mem_cons.mp hd with hx | hj
            · exact Or.inl hx
            · rcases ih hj with hx | ⟨l, hl, hxl⟩
              · exact Or.inl hx
              · exact Or.inr ⟨l, by simp [hl], hxl⟩

lemma count_joinSep (d : Char) :
    ∀ ls : List (List Char), (∀ l ∈ ls, d ∉ l) →
      (joinSep d ls).count d = ls.length - 1 := by
  intro ls
  induction ls with
  | nil => intro _; simp [joinSep]
  | cons a tail ih =>
      cases tail with
      | nil =>
          intro h
          show a.count d = 1 - 1
          simp [List.count_eq_zero.mpr (h a (by simp))]
      | cons b rest =>
          intro h
          show (a ++ d :: joinSep d (b :: rest)).count d = (b :: rest).length + 1 - 1
          rw [List.count_append, List.count_cons_self,
            List.count_eq_zero.mpr (h a (by simp)),
            ih (fun l hl => h l (by simp [hl]))]
          simp [List.length_cons]

lemma mem_escBody (x : Char) (s : List Char) (h : x ∈ escBody s) : x ∈ s := by
  unfold escBody at h
  rcases List.mem_bind.mp h with ⟨a, ha, hx⟩
  by_cases hq : a = '"'
  · rw [if_pos hq] at hx
    rcases List.mem_cons.mp hx with h1 | h1
    · rw [h1, ← hq] at *; exact ha
    · simp at h1
      rw [h1, ← hq] at *; exact ha
  · rw [if_neg hq] at hx
    simp at hx
    rw [hx]; exact ha

lemma mem_escField (x : Char) (s : List Char) (h : x ∈ escField s) :
    x = '"' ∨ x ∈ s := by
  unfold escField at h
  rcases List.mem_cons.mp h with h1 | h1
  · exact Or.inl h1
  · rcases List.mem_append.mp h1 with h2 | h2
    · exact Or.inr (mem_escBody x s h2)
    · simp at h2
      exact Or.inl h2

/-- Claim C9 as amended: for every non-empty list of `n` records whose
header keys and serialized field values contain no newline character, CSV
export emits the comma-joined header row followed by one row per record,
separated by exactly `n` newlines (hence `n + 1` newline-separated lines);
each field is the serialized value (nested objects as embedded JSON text)
with internal double quotes doubled and wrapped in double quotes, and
re-splitting each data row by comma respecting quotes recovers exactly the
serialized field values of that record.  A serialized field value that
contains a newline breaks the `n + 1`-line property (see the
counterexample), which forces the newline-free hypothesis. -/
theorem c9_csv_amended (data : List CSVRecord) (hne : data ≠ [])
    (hclean : ∀ row ∈ data, ∀ h ∈ headersOf data, '\n' ∉ cellString row h)
    (hcleanH : ∀ h ∈ headersOf data, '\n' ∉ h) :
    exportAsCSV data =
      some (joinSep '\n' (joinSep ',' (headersOf data) ::
        data.map (csvRowLine (headersOf data)))) ∧
    ((exportAsCSV data).getD []).count '\n' = data.length ∧
    (∀ line ∈ (joinSep ',' (headersOf data) :: data.map (csvRowLine (headersOf data))),
      '\n' ∉ line) ∧
    (∀ row ∈ data, parseFields (csvRowLine (headersOf data) row) =
      (headersOf data).map (cellString row)) := by
  have hclean2 : ∀ line ∈ (joinSep ',' (headersOf data) ::
      data.map (csvRowLine (headersOf data))), '\n' ∉ line := by
    intro line hline hmem
    rcases List.mem_cons.mp hline with h1 | h1
    · subst h1
      rcases mem_joinSep '\n' ',' (headersOf data) hmem with hx | ⟨l, hl, hxl⟩
      · cases hx
      · exact hcleanH l hl hxl
    · rcases List.mem_map.mp h1 with ⟨row, hrow, hrowline⟩
      subst hrowline
      rcases mem_joinSep '\n' ','
          ((headersOf data).map fun h => escField (cellString row h)) hmem with
        hx | ⟨l, hl, hxl⟩
      · cases hx
      · rcases List.mem_map.mp hl with ⟨h, hh, hfield⟩
        subst hfield
        rcases mem_escField '\n' (cellString row h) hxl with hq | hcell
        · cases hq
        · exact hclean row hrow h hh hcell
  obtain ⟨first, rest, rfl⟩ : ∃ f r, data = f :: r := by
    cases data with
    | nil => exact absurd rfl hne
    | cons f r => exact ⟨f, r, rfl⟩
  have hexport : exportAsCSV (first :: rest) =
      some (joinSep '\n' (joinSep ',' (headersOf (first :: rest)) ::
        (first :: rest).map (csvRowLine (headersOf (first :: rest))))) := rfl
  refine ⟨hexport, ?_, hclean2, ?_⟩
  · rw [hexport]
    show (joinSep '\n' (joinSep ',' (headersOf (first :: rest)) ::
      (first :: rest).map (csvRowLine (headersOf (first :: rest))))).count '\n' =
      (first :: rest).length
    rw [count_joinSep '\n' _ hclean2]
    simp
  · intro row hrow
    unfold csvRowLine
    rw [show ((headersOf (first :: rest)).map fun h => escField (cellString row h)) =
        ((headersOf (first :: rest)).map (cellString row)).map escField by
      rw [List.map_map]; rfl]
    exact parseFields_escape _

/-- The one-record data set whose single field value contains a newline. -/
def c9Data : List CSVRecord := [[("a".toList, JSValue.vstr ("x\ny".toList))]]

/-- Claim C9, counterexample: exporting one record whose field value
contains a newline yields output with two newline characters, i.e. three
newline-separated lines, not the claimed `n + 1 = 2`. -/
theorem c9_counterexample :
    ((exportAsCSV c9Data).getD []).count '\n' ≠ c9Data.length ∧
    ((exportAsCSV c9Data).getD []).count '\n' = 2 ∧
    c9Data.length = 1 := by
  refine ⟨?_, by decide, rfl⟩
  decide

/-- The two-record witness data set: a quote inside a string value, a
nested object value, a comma inside a string value, and a key missing from
the second record. -/
def c9WData : List CSVRecord :=
  [[("name".toList, JSValue.vstr ("Alice \"A\"".toList)),
    ("meta".toList, JSValue.vobj [("k".toList, JSValue.vnum 3)])],
   [("name".toList, JSValue.vstr ("Bob, Jr".toList))]]

/-- Witness for C9 (amended) on the concrete data set: two newlines for two
records, and comma re-splitting recovers the serialized cells. -/
theorem c9_witness :
    ((exportAsCSV c9WData).getD []).count '\n' = c9WData.length ∧
    (∀ row ∈ c9WData, parseFields (csvRowLine (headersOf c9WData) row) =
      (headersOf c9WData).map (cellString row)) := by
  have h := c9_csv_amended c9WData (by simp [c9WData])
    (by intro row hrow h hh; fin_cases hrow <;> fin_cases hh <;> decide)
    (by intro h hh; fin_cases hh <;> decide)
  exact ⟨h.2.1, h.2.2.2⟩

end ClinicalNLP
